import Mathlib

/-!
Shallow embedding of the code-agent orchestration pipeline
(repository: Dizolivemint/code-agent).

Conventions used throughout this development:

* Python dict literals whose exact key set matters are embedded as
  association lists `List (String × PyVal)`; dicts whose fields are fixed
  are embedded as Lean structures.
* External collaborators (the LLM agents, the subprocess runner, the git
  and GitHub clients) are parameters: every embedded function takes an
  "environment" value describing the outcome each collaborator call would
  produce, and the function's branching is translated from the source
  verbatim.
* Python strings are sequences of Unicode code points; where character
  classes matter (`sanitize_branch_name`) we embed strings as
  `List Nat` of code points, restricted to the ASCII semantics of
  Python's `\w`, `str.lower` and `str.strip`.
* Raised exceptions are embedded as `Except PyExn`; a function whose
  Python body catches everything it does is embedded as a total function.
-/

namespace CodeAgent

/-- Embedded Python values appearing in result dictionaries. -/
inductive PyVal where
  | str (s : String)
  | int (n : Int)
deriving DecidableEq, Repr

/-- Embedded Python exception classes relevant to the claims.  The
constructors `configurationError` and `missingModelConfiguration` are the
error classes named by the specification; they exist in the exception
universe so that "this code never raises them" is a statable, non-trivial
property of the embedded functions. -/
inductive PyExn where
  | valueError (msg : String)
  | permissionError (msg : String)
  | genericExn (msg : String)
  | githubException (msg : String)
  | configurationError (msg : String)
  | missingModelConfiguration (msg : String)
deriving DecidableEq, Repr

/-! ### Code execution (src/code_agent/tools/code_tools.py, CodeTools.execute_code)

`execute_code` writes the code to a temp file and runs it via
`subprocess.run` with a 10 second timeout.  The three outcomes the Python
can observe are: the subprocess completed (with some stdout/stderr/return
code), `subprocess.TimeoutExpired` was raised, or some other exception was
raised during setup/execution.  Each branch of the source returns a dict
literal, which we embed key-for-key. -/

/-- Outcome of the sandboxed subprocess run inside `execute_code`. -/
inductive RunOutcome where
  | completed (stdout stderr : String) (returncode : Int)
  | timedOut
  | raised (msg : String)
deriving DecidableEq, Repr

/-- Embedding of `CodeTools.execute_code` (code_tools.py lines 252-321):
each branch returns the source's dict literal as an association list. -/
def execute_code (o : RunOutcome) : List (String × PyVal) :=
  match o with
  | .completed out err rc =>
      [("stdout", .str out), ("stderr", .str err), ("exit_code", .int rc),
       ("status", .str (if rc = 0 then "success" else "error"))]
  | .timedOut =>
      [("stdout", .str ""), ("stderr", .str "Execution timed out (10 seconds)"),
       ("exit_code", .int (-1)), ("status", .str "timeout")]
  | .raised m =>
      [("stdout", .str ""), ("stderr", .str ("Failed to execute code: " ++ m)),
       ("exit_code", .int (-1)), ("status", .str "error")]

/-! ### Execution recovery (src/code_agent/tools/development_manager.py)

`DevelopmentManager.implement_feature` contains two inlined copies of the
same execute/repair logic, one for the implementation artifact
(lines 329-371) and one for the test artifact (lines 379-420):

execute the artifact; if the result's `status` equals `"error"`, build a
repair prompt embedding the original code and the failure detail, invoke
the originating agent once, and if the agent's response carries a
`"code"` key, execute that corrected code once; a second `"error"` status
is terminal, as is a repair response without code.

The module-level `execute_code` used by this caller and the
`create_github_tools` toolset are referenced but absent from the sources,
so the collaborators are modelled from the spec: the execution
collaborator returns an ExecutionResult with fields
stdout/stderr/exit_code and a status drawn from success/error/timeout
(spec section 3 and 6 — statuses matching the in-source
`CodeTools.execute_code` above), and the spec-modelled VCS operations
return tagged status/message results (spec section 6).  The agents are
opaque: a `RecoveryEnv` records what each collaborator call would return. -/

/-- Status field of an execution result (spec section 3, matching the
three strings produced by `CodeTools.execute_code`). -/
inductive ExecStatus where
  | success
  | error
  | timeout
deriving DecidableEq, Repr

/-- Modelled from the spec: ExecutionResult of the code-execution
collaborator (the module-level `execute_code` imported by
development_manager.py is missing from the sources). -/
structure ExecutionResult where
  stdout : String
  stderr : String
  exit_code : Int
  status : ExecStatus
deriving DecidableEq, Repr

/-- Collaborator outcomes for one artifact's execute/repair sequence:
the result of executing the original artifact, the `"code"` key of the
originating agent's repair response (if any), and the result of executing
the corrected artifact. -/
structure RecoveryEnv where
  firstExec : ExecutionResult
  repairResponse : Option String
  secondExec : ExecutionResult
deriving DecidableEq, Repr

/-- Result variants of the execute/repair sequence: the artifact was
accepted (with the final, possibly repaired, code and the accepted
execution result), the corrected artifact failed again (carrying the
second execution result as the terminal failure detail), or the repair
response carried no code. -/
inductive RecoveryOutcome where
  | accepted (code : String) (result : ExecutionResult)
  | execFailed (detail : ExecutionResult)
  | repairFailed
deriving DecidableEq, Repr

/-- Execute/repair sequence result instrumented with the number of
execution attempts and agent repair re-invocations issued. -/
structure RecoveryResult where
  outcome : RecoveryOutcome
  execAttempts : Nat
  repairInvocations : Nat
deriving DecidableEq, Repr

/-- Whether an execute/repair outcome accepted the artifact. -/
def RecoveryOutcome.isAccepted : RecoveryOutcome → Bool
  | .accepted _ _ => true
  | _ => false

/-- Embedding of the execute/repair sequence of
`DevelopmentManager.implement_feature` (both inlined copies have this
exact branch structure).  Only a first execution whose status equals
`error` triggers the repair branch; the counts record each call to the
execution collaborator and each repair re-invocation of the agent. -/
def run_with_recovery (code : String) (env : RecoveryEnv) : RecoveryResult :=
  if env.firstExec.status = ExecStatus.error then
    match env.repairResponse with
    | some fixedCode =>
        if env.secondExec.status = ExecStatus.error then
          { outcome := .execFailed env.secondExec, execAttempts := 2, repairInvocations := 1 }
        else
          { outcome := .accepted fixedCode env.secondExec, execAttempts := 2, repairInvocations := 1 }
    | none =>
        { outcome := .repairFailed, execAttempts := 1, repairInvocations := 1 }
  else
    { outcome := .accepted code env.firstExec, execAttempts := 1, repairInvocations := 0 }

/-- Feature dictionaries carry a name and a description
(`_extract_features_from_results` produces exactly these keys). -/
structure Feature where
  name : String
  description : String
deriving DecidableEq, Repr

/-- Tagged status/message result of a VCS operation (spec section 6). -/
structure TaggedResult where
  status : String
  message : String
deriving DecidableEq, Repr

/-- Developer agent implementation result: the optional `"code"` key and
the optional `"summary"` key read by `implement_feature`. -/
structure ImplResult where
  code : Option String
  summary : Option String
deriving DecidableEq, Repr

/-- Tester agent result: the optional `"test_code"` key and the optional
`"summary"` key read by `implement_feature`. -/
structure TestResult where
  test_code : Option String
  summary : Option String
deriving DecidableEq, Repr

/-- Results the spec-modelled VCS collaborator would return during one
feature pipeline step, plus whether a repository is configured
(`hasattr(self.github_tools, "repository") and self.github_tools.repository`). -/
structure VcsEnv where
  repositoryConfigured : Bool
  branchResult : TaggedResult
  commitResult : TaggedResult
  prResult : TaggedResult
deriving DecidableEq, Repr

/-- Everything the collaborators would return during one
`implement_feature` call. -/
structure FeatureEnv where
  implResult : ImplResult
  implRecovery : RecoveryEnv
  testResult : TestResult
  testRecovery : RecoveryEnv
  vcs : VcsEnv
deriving DecidableEq, Repr

/-- Error detail carried in the returned error dictionary: the terminal
execution result, or one of the two literal failure strings of the
source (`"Failed to fix code"` / `"Failed to fix test code"`). -/
inductive ErrorDetail where
  | fromExec (r : ExecutionResult)
  | fixFailed
  | fixTestsFailed
deriving DecidableEq, Repr

/-- Return value of `implement_feature`: the success dictionary
(feature, implementation, tests) or one of the error dictionaries. -/
inductive FeatureOutcome where
  | ok (feature : Feature) (implementation : ImplResult) (tests : TestResult)
  | implError (detail : ErrorDetail) (feature : Feature)
  | testError (detail : ErrorDetail) (feature : Feature) (implementation : ImplResult)
deriving DecidableEq, Repr

/-- Value of the `"status"` key of the returned dictionary. -/
def FeatureOutcome.status : FeatureOutcome → String
  | .ok _ _ _ => "success"
  | .implError _ _ => "error"
  | .testError _ _ _ => "error"

/-- Return value of `implement_feature` together with the error-level log
lines it emits (logging is the only use the source makes of the VCS
results). -/
structure FeatureCallResult where
  outcome : FeatureOutcome
  errorLogs : List String
deriving DecidableEq, Repr

/-- Commit / pull-request tail of `implement_feature` (lines 422-455):
runs only when the success dictionary is about to be returned; both
results are only logged. -/
def implement_feature_finish (feature : Feature) (env : FeatureEnv)
    (implementation : ImplResult) (tests : TestResult) (logs : List String) :
    FeatureCallResult :=
  if env.vcs.repositoryConfigured then
    if env.vcs.commitResult.status = "error" then
      { outcome := .ok feature implementation tests,
        errorLogs := logs ++ ["Failed to commit changes: " ++ env.vcs.commitResult.message] }
    else if env.vcs.prResult.status = "error" then
      { outcome := .ok feature implementation tests,
        errorLogs := logs ++ ["Failed to create pull request: " ++ env.vcs.prResult.message] }
    else
      { outcome := .ok feature implementation tests, errorLogs := logs }
  else
    { outcome := .ok feature implementation tests, errorLogs := logs }

/-- Test-artifact half of `implement_feature` (lines 372-420): create the
tests, and when the tester result carries a `"test_code"` key run the
execute/repair sequence on it; a terminal failure returns the error
dictionary that also carries the implementation. -/
def implement_feature_tests (feature : Feature) (env : FeatureEnv)
    (implementation : ImplResult) (logs : List String) : FeatureCallResult :=
  match env.testResult.test_code with
  | some testCode =>
    match (run_with_recovery testCode env.testRecovery).outcome with
    | .execFailed d =>
        { outcome := .testError (.fromExec d) feature implementation,
          errorLogs := logs ++ ["Failed to execute tests after fix attempt: " ++ d.stderr] }
    | .repairFailed =>
        { outcome := .testError .fixTestsFailed feature implementation,
          errorLogs := logs ++ ["Failed to get fixed code from tester agent"] }
    | .accepted fixedCode _ =>
        implement_feature_finish feature env implementation
          { env.testResult with test_code := some fixedCode } logs
  | none => implement_feature_finish feature env implementation env.testResult logs

/-- Error log of the branch-creation step of `implement_feature`
(lines 313-321): when a repository is configured and the tagged branch
result reports an error, the failure is logged; nothing else is done
with it.  Throughout this embedding the failure detail logged for a
failed execution is taken from the result's stderr (the source reads an
`error` key of the execution result; the spec's ExecutionResult carries
the failure text in stderr). -/
def branch_logs (env : FeatureEnv) : List String :=
  if env.vcs.repositoryConfigured && env.vcs.branchResult.status == "error" then
    ["Failed to create branch: " ++ env.vcs.branchResult.message]
  else []

/-- Embedding of `DevelopmentManager.implement_feature` (lines 297-462):
the best-effort branch step (logged only, see `branch_logs`), then the
implementation artifact's execute/repair sequence, then the test half
and the commit/pull-request tail. -/
def implement_feature (feature : Feature) (env : FeatureEnv) : FeatureCallResult :=
  let logs0 : List String := branch_logs env
  match env.implResult.code with
  | some implCode =>
    match (run_with_recovery implCode env.implRecovery).outcome with
    | .execFailed d =>
        { outcome := .implError (.fromExec d) feature,
          errorLogs := logs0 ++ ["Failed to execute implementation after fix attempt: " ++ d.stderr] }
    | .repairFailed =>
        { outcome := .implError .fixFailed feature,
          errorLogs := logs0 ++ ["Failed to get fixed code from developer agent"] }
    | .accepted fixedCode _ =>
        implement_feature_tests feature env { env.implResult with code := some fixedCode } logs0
  | none => implement_feature_tests feature env env.implResult logs0

/-- Whether one execute/repair sequence ends in a terminal failure
(first status error, and then either no repair code or a second error). -/
def recoveryFails (renv : RecoveryEnv) : Bool :=
  if renv.firstExec.status = ExecStatus.error then
    match renv.repairResponse with
    | none => true
    | some _ => if renv.secondExec.status = ExecStatus.error then true else false
  else false

/-- Whether the implementation artifact of a feature permanently fails. -/
def implPermFail (env : FeatureEnv) : Bool :=
  match env.implResult.code with
  | some _ => recoveryFails env.implRecovery
  | none => false

/-- Whether the test artifact of a feature permanently fails. -/
def testPermFail (env : FeatureEnv) : Bool :=
  match env.testResult.test_code with
  | some _ => recoveryFails env.testRecovery
  | none => false

/-- Embedding of the feature loop of `DevelopmentManager.build_project`
(lines 480-489): `for feature in features: feature_results.append(implement_feature(...))`. -/
def build_project (features : List (Feature × FeatureEnv)) : List FeatureOutcome :=
  features.foldl (fun acc fe => acc ++ [(implement_feature fe.1 fe.2).outcome]) []

/-! ### Feature extraction (`DevelopmentManager._extract_features_from_results`, lines 491-517) -/

/-- Shape of the architect result as far as the extractor reads it: an
optional `"features"` entry and an optional `"components"` entry. -/
structure ResultsDict where
  features : Option (List Feature)
  components : Option (List String)
deriving DecidableEq, Repr

/-- An architect result: a dictionary, or any non-dictionary value (the
`isinstance(results, dict)` guard fails on e.g. the plain text the agent
may return). -/
inductive AgentResults where
  | dict (d : ResultsDict)
  | nondict (text : String)
deriving DecidableEq, Repr

/-- Feature list found in the results before the default kicks in: the
`"features"` entry if present, otherwise components converted to
features, otherwise empty. -/
def raw_features : AgentResults → List Feature
  | .dict d =>
    match d.features with
    | some fs => fs
    | none =>
      match d.components with
      | some comps =>
          comps.map (fun comp => { name := comp, description := "Component implementation" })
      | none => []
  | .nondict _ => []

/-- Default feature synthesized when no features were found. -/
def core_feature : Feature :=
  { name := "Core Functionality",
    description := "Implement core functionality based on requirements" }

/-- Embedding of `_extract_features_from_results`: the found features,
or the single default feature when the found list is falsy (empty). -/
def extract_features_from_results (results : AgentResults) : List Feature :=
  if (raw_features results).isEmpty then [core_feature] else raw_features results

/-! ### Branch-name sanitization (src/code_agent/utils/helpers.py, sanitize_branch_name)

The source is
`re.sub(r'[^\w\-]', '-', name)`, then `re.sub(r'-+', '-', ...)`, then
`.lower().strip('-')`.  Python strings are sequences of code points, so
strings are embedded as `List Nat` of code points.  Python's word class
and `str.lower` are Unicode operations; this embedding models them
exactly on the ASCII range and on the two non-ASCII code points the
development evaluates them at — U+0130 (İ, an alphanumeric letter whose
`str.lower` image is the TWO code points U+0069 U+0307, per Unicode
SpecialCasing) and U+0307 (combining dot above, a combining mark that is
not a word character and has no case mapping).  The full pipeline is
`sanitize_ucodes`; the `isWordCode`/`asciiLower`/`subNonword`/
`sanitize_codes` family below is its ASCII fragment, used to organize the
ASCII-restricted proofs and provably equal to the full pipeline on ASCII
input. -/

/-- ASCII uppercase letter code point. -/
def isUpperCode (c : Nat) : Bool := 65 ≤ c && c ≤ 90

/-- ASCII lowercase letter code point. -/
def isLowerCode (c : Nat) : Bool := 97 ≤ c && c ≤ 122

/-- ASCII digit code point. -/
def isDigitCode (c : Nat) : Bool := 48 ≤ c && c ≤ 57

/-- ASCII fragment of Python's word class: letter, digit, or underscore
(code 95); exact for code points below 128. -/
def isWordCode (c : Nat) : Bool :=
  isLowerCode c || isUpperCode c || isDigitCode c || c == 95

/-- Code point of the dash character. -/
def dashCode : Nat := 45

/-- ASCII fragment of `str.lower` on one code point; exact for code
points below 128. -/
def asciiLower (c : Nat) : Nat := if isUpperCode c then c + 32 else c

/-- Python's word class on the modelled scope: the ASCII fragment plus
U+0130 (decimal 304), an alphanumeric letter.  U+0307 (decimal 775), a
combining mark, is not alphanumeric and is correctly rejected. -/
def pyIsWord (c : Nat) : Bool := isWordCode c || c == 304

/-- Python's `str.lower` on one code point of the modelled scope: ASCII
uppercase maps into ASCII lowercase, and U+0130 lowercases to the two
code points U+0069 U+0307 (Unicode SpecialCasing) — the multi-code-point
mapping that breaks the source's idempotence.  Code points with no
modelled case mapping (including U+0307) map to themselves. -/
def pyLowerChar (c : Nat) : List Nat :=
  if c == 304 then [105, 775] else [asciiLower c]

/-- Python's `str.lower`: concatenation of the per-code-point images. -/
def pyLower (l : List Nat) : List Nat := (l.map pyLowerChar).join

/-- First substitution (ASCII fragment): every character outside the word
class that is not a dash becomes a dash. -/
def subNonword (l : List Nat) : List Nat :=
  l.map (fun c => if isWordCode c || c == dashCode then c else dashCode)

/-- First substitution with Python's word class
(`re.sub(r'[^\w\-]', '-', name)`). -/
def subNonword_u (l : List Nat) : List Nat :=
  l.map (fun c => if pyIsWord c || c == dashCode then c else dashCode)

/-- Second substitution: each maximal run of dashes becomes one dash. -/
def collapseDashes : List Nat → List Nat
  | [] => []
  | c :: rest =>
    match collapseDashes rest with
    | [] => [c]
    | d :: t => if c == dashCode && d == dashCode then d :: t else c :: d :: t

/-- Whether the list contains two adjacent dashes. -/
def hasDD : List Nat → Bool
  | c :: d :: rest => (c == dashCode && d == dashCode) || hasDD (d :: rest)
  | _ => false

/-- Removal of trailing dashes (the right half of `strip('-')`). -/
def rstripDashes : List Nat → List Nat
  | [] => []
  | c :: rest =>
    match rstripDashes rest with
    | [] => if c == dashCode then [] else [c]
    | d :: t => c :: d :: t

/-- Removal of leading and trailing dashes (`strip('-')`). -/
def stripDashes (l : List Nat) : List Nat :=
  rstripDashes (l.dropWhile (fun c => c == dashCode))

/-- ASCII fragment of the sanitizer pipeline: substitute, collapse dash
runs, lowercase, strip dashes from both ends; coincides with the full
pipeline `sanitize_ucodes` on ASCII input (proved below). -/
def sanitize_codes (l : List Nat) : List Nat :=
  stripDashes ((collapseDashes (subNonword l)).map asciiLower)

/-- Embedding of `sanitize_branch_name` over code points with Python's
character semantics on the modelled scope: substitute with the word
class, collapse dash runs, lowercase (possibly multi-code-point), strip
dashes from both ends. -/
def sanitize_ucodes (l : List Nat) : List Nat :=
  stripDashes (pyLower (collapseDashes (subNonword_u l)))

/-- String-level wrapper of `sanitize_ucodes` (used when the sanitized
name is spliced into a message). -/
def sanitize_branch_name (s : String) : String :=
  String.mk ((sanitize_ucodes (s.toList.map Char.toNat)).map Char.ofNat)

/-! ### GitHub tools (src/code_agent/tools/github_tools.py, class GitHubTools)

`clone_repository` raises on failure; `create_branch` performs a lazy
clone OUTSIDE its try block before returning tagged results from inside
it; `commit_changes` is entirely guarded and always returns a tagged
result; `create_pull_request` returns a PR dictionary or a bare
`error`-keyed dictionary.  A `GitEnv` records what each git command would
return. -/

/-- What one git subprocess invocation returns (`run_command`). -/
structure CmdResult where
  stdout : String
  stderr : String
  returncode : Int
deriving DecidableEq, Repr

/-- Collaborator outcomes for the git-backed operations: the state of the
lazy local clone, whether a repository was configured, and the results of
each git command the operations may run (results of the fetch/checkout/
pull refresh commands in `create_branch` are discarded by the source and
are therefore not recorded). -/
structure GitEnv where
  localRepoPath : Option String
  repositorySet : Bool
  clonePath : String
  cloneReturncode : Int
  cloneStderr : String
  checkoutNew : CmdResult
  pushBranch : CmdResult
  checkoutBranch : CmdResult
  commitCmd : CmdResult
  pushCmd : CmdResult
deriving DecidableEq, Repr

/-- Embedding of `GitHubTools.clone_repository` (lines 55-89): raises
ValueError when no repository is set, raises on a failed `git clone`
(the except block re-raises), otherwise returns the clone path. -/
def clone_repository (env : GitEnv) : Except PyExn String :=
  if env.repositorySet = false then
    .error (.valueError "Repository not set. Call set_repository first.")
  else if env.cloneReturncode ≠ 0 then
    .error (.genericExn ("Failed to clone repository: " ++ env.cloneStderr))
  else .ok env.clonePath

/-- Whether the pattern occurs at the head of the list. -/
def leadsWith : List Char → List Char → Bool
  | [], _ => true
  | _ :: _, [] => false
  | a :: ps, b :: ls => a == b && leadsWith ps ls

/-- Whether the pattern occurs anywhere in the list (Python `in`). -/
def occursIn (pat : List Char) : List Char → Bool
  | [] => leadsWith pat []
  | b :: ls => leadsWith pat (b :: ls) || occursIn pat ls

/-- Embedding of `GitHubTools.create_branch` (lines 160-213): the lazy
clone sits before the try block, so its exceptions propagate; inside the
try block, failed `git checkout -b` or `git push -u` return tagged error
results and success returns a tagged success message naming the
sanitized branch. -/
def create_branch (branch_name : String) (env : GitEnv) : Except PyExn TaggedResult :=
  match (match env.localRepoPath with
         | none => clone_repository env
         | some p => Except.ok p) with
  | .error e => .error e
  | .ok _ =>
    if env.checkoutNew.returncode ≠ 0 then
      .ok { status := "error",
            message := "Failed to create branch: " ++ env.checkoutNew.stderr }
    else if env.pushBranch.returncode ≠ 0 then
      .ok { status := "error",
            message := "Failed to push branch: " ++ env.pushBranch.stderr }
    else
      .ok { status := "success",
            message := "Successfully created and pushed branch: " ++ sanitize_branch_name branch_name }

/-- Commit-and-push tail of `commit_changes` (lines 260-291): warning on
"nothing to commit", error on a failed commit or push, success
otherwise. -/
def commit_changes_push (message : String) (env : GitEnv) : TaggedResult :=
  if env.commitCmd.returncode ≠ 0 then
    if occursIn ("nothing to commit".toList) (env.commitCmd.stderr.toList) then
      { status := "warning", message := "Nothing to commit, working tree clean" }
    else
      { status := "error", message := "Failed to commit: " ++ env.commitCmd.stderr }
  else if env.pushCmd.returncode ≠ 0 then
    { status := "error", message := "Failed to push: " ++ env.pushCmd.stderr }
  else
    { status := "success",
      message := "Successfully committed and pushed changes with message: " ++ message }

/-- Embedding of `GitHubTools.commit_changes` (lines 215-296): entirely
inside a try block, it always returns a tagged result — error without a
local clone, error on a failed branch switch, warning when there was
nothing to commit, error on a failed commit or push, success otherwise.
The results of the `git add` commands are discarded by the source. -/
def commit_changes (message : String) (branch : Option String) (env : GitEnv) :
    TaggedResult :=
  match env.localRepoPath with
  | none =>
      { status := "error",
        message := "Local repository not available. Clone repository first." }
  | some _ =>
    match branch with
    | some b =>
      if env.checkoutBranch.returncode ≠ 0 then
        { status := "error",
          message := "Failed to switch to branch " ++ b ++ ": " ++ env.checkoutBranch.stderr }
      else commit_changes_push message env
    | none => commit_changes_push message env

/-- Outcome of the PyGithub `create_pull` call. -/
inductive GithubApiOutcome where
  | ok (number : Nat) (url : String)
  | exn (msg : String)
deriving DecidableEq, Repr

/-- Embedding of `GitHubTools.create_pull_request` (lines 298-340): a bare
`error`-keyed dictionary (no `status` key) when the repository is unset or
the API call raises, otherwise the PR dictionary. -/
def create_pull_request (repoSet : Bool) (api : GithubApiOutcome)
    (title body : String) : List (String × PyVal) :=
  if repoSet = false then
    [("error", .str "Repository not set. Call set_repository first.")]
  else
    match api with
    | .ok n url => [("pr_number", .int (n : Int)), ("pr_url", .str url),
                    ("title", .str title), ("body", .str body)]
    | .exn m => [("error", .str ("Failed to create GitHub pull request: " ++ m))]

/-! ### Orchestrator construction (src/code_agent/agents/orchestrator.py)

`AgentOrchestrator._init_tools` (lines 38-55) builds the GitHub tool set
only when both a token and a username are configured, and builds the
filesystem, code and test tool sets unconditionally; no availability
check of any kind exists, and no ConfigurationError class exists in the
code.  The only thing that can fail is the external GitHub connection
(`GitHubTools.__init__` calls `set_repository`, which re-raises
`GithubException`, when a repository name is configured). -/

/-- The tool groups `_init_tools` can register. -/
inductive ToolGroup where
  | github
  | filesystem
  | code
  | test
deriving DecidableEq, Repr

/-- Embedding of `AgentOrchestrator._init_tools`.  The first argument is
the environment's filesystem availability (whether the filesystem
collaborator is actually usable): the source consults no such
information, so the result provably does not depend on it; it is a
parameter only so that the specification's capability-gate claim can be
stated.  `connect` is the outcome of the external `get_repo` call. -/
def init_tools (fsAvailable : Bool) (token username repository : String)
    (connect : Except String Unit) : Except PyExn (List ToolGroup) :=
  if token ≠ "" && username ≠ "" then
    if repository ≠ "" then
      match connect with
      | .error m => .error (.githubException m)
      | .ok _ => .ok [ToolGroup.github, .filesystem, .code, .test]
    else .ok [ToolGroup.github, .filesystem, .code, .test]
  else .ok [ToolGroup.filesystem, .code, .test]

/-- Whether an orchestrator-construction result raised a
ConfigurationError. -/
def raisesConfigurationError (r : Except PyExn (List ToolGroup)) : Bool :=
  match r with
  | .error (.configurationError _) => true
  | _ => false

/-! ### Role-agent construction (`AgentOrchestrator._init_agents` /
`_create_agent`, lines 57-190)

Candidate tool lists may contain `None` placeholders
(`self.tools["github"].commit_changes if "github" in self.tools else None`);
`_create_agent` filters them with `[tool for tool in tools if tool is not None]`. -/

/-- The tool operations bound in `_init_agents`, one constructor per
bound method. -/
inductive ToolRef where
  | list_directory
  | read_file
  | write_file
  | create_directory
  | analyze_code
  | extract_imports
  | format_code
  | lint_code
  | execute_code_tool
  | extract_docstrings
  | generate_test
  | run_tests_tool
  | run_coverage
  | generate_test_suite
  | commit_changes_tool
  | create_pull_request_tool
deriving DecidableEq, Repr, Fintype

/-- The five roles `_init_agents` constructs. -/
inductive Role where
  | architect
  | developer
  | tester
  | reviewer
  | manager
deriving DecidableEq, Repr, Fintype

/-- Whether a tool binding is backed by the GitHub collaborator group
(the bindings accessed through `self.tools["github"]`). -/
def requiresGithub : ToolRef → Bool
  | .commit_changes_tool => true
  | .create_pull_request_tool => true
  | _ => false

/-- Availability of the GitHub tool group
(`if self.config.github.token and self.config.github.username`). -/
def githubAvailable (token username : String) : Bool :=
  token ≠ "" && username ≠ ""

/-- Candidate tool list of each role exactly as written in
`_init_agents`, with `None` entries where the source writes the
conditional GitHub binding. -/
def candidate_tools (r : Role) (github : Bool) : List (Option ToolRef) :=
  match r with
  | .architect =>
      [some .list_directory, some .read_file, some .write_file,
       some .create_directory, some .analyze_code, some .extract_imports]
  | .developer =>
      [some .list_directory, some .read_file, some .write_file,
       some .create_directory, some .analyze_code, some .format_code,
       some .lint_code, some .execute_code_tool,
       if github then some .commit_changes_tool else none]
  | .tester =>
      [some .list_directory, some .read_file, some .write_file,
       some .generate_test, some .run_tests_tool, some .run_coverage,
       some .generate_test_suite]
  | .reviewer =>
      [some .list_directory, some .read_file, some .write_file,
       some .analyze_code, some .lint_code, some .extract_docstrings,
       if github then some .create_pull_request_tool else none]
  | .manager => []

/-- Embedding of the filter in `_create_agent`:
`tools = [tool for tool in tools if tool is not None]`. -/
def create_agent_tools (candidates : List (Option ToolRef)) : List ToolRef :=
  candidates.filterMap id

/-- Tool list of the constructed agent for a role. -/
def agent_tools (r : Role) (github : Bool) : List ToolRef :=
  create_agent_tools (candidate_tools r github)

/-! ### Configuration (src/code_agent/config.py) -/

/-- Default model id used by `Config.__init__` for every role. -/
def defaultModel : String := "meta-llama/Meta-Llama-3.1-70B-Instruct"

/-- Embedding of the model-id resolution
`os.getenv(VAR) or config_file.get("model_id", default)`: a set, nonempty
environment variable wins; otherwise the config-file value if the key is
present (even empty); otherwise the built-in default. -/
def resolve_model_id (envVar : Option String) (fileVal : Option String) : String :=
  match envVar with
  | some s => if s ≠ "" then s else fileVal.getD defaultModel
  | none => fileVal.getD defaultModel

/-- Per-role agent configuration (the fields the claims read). -/
structure AgentConfig where
  name : String
  model_id : String
deriving DecidableEq, Repr

/-- Model-id environment variables (ARCHITECT_MODEL etc.), `none` when
unset. -/
structure EnvModelVars where
  architectModel : Option String
  developerModel : Option String
  testerModel : Option String
  reviewerModel : Option String
deriving DecidableEq, Repr

/-- Model ids found in the configuration file, `none` when the key is
absent. -/
structure FileModelCfg where
  architectModel : Option String
  developerModel : Option String
  testerModel : Option String
  reviewerModel : Option String
deriving DecidableEq, Repr

/-- The four agent configurations `Config.__init__` builds. -/
def config_agents (env : EnvModelVars) (file : FileModelCfg) : List AgentConfig :=
  [{ name := "architect", model_id := resolve_model_id env.architectModel file.architectModel },
   { name := "developer", model_id := resolve_model_id env.developerModel file.developerModel },
   { name := "tester", model_id := resolve_model_id env.testerModel file.testerModel },
   { name := "reviewer", model_id := resolve_model_id env.reviewerModel file.reviewerModel }]

/-- Embedding of the model-construction loop of
`AgentOrchestrator._init_agents` (lines 59-67): one HfApiModel per
configured agent, built unconditionally from whatever model id the
configuration carries; nothing is validated and nothing can be raised by
the orchestration code. -/
def init_agents (agents : List AgentConfig) :
    Except PyExn (List (String × String)) :=
  .ok (agents.map (fun a => (a.name, a.model_id)))

/-- GitHub credential configuration. -/
structure GithubConfig where
  token : String
  username : String
  repository : String
deriving DecidableEq, Repr

/-- Full configuration as far as `Config.validate` reads it. -/
structure FullConfig where
  github : GithubConfig
  architect : AgentConfig
  developer : AgentConfig
  tester : AgentConfig
  reviewer : AgentConfig
deriving DecidableEq, Repr

/-- Embedding of `Config.validate` (config.py lines 136-147): false on an
empty token, false on an empty username, false when no agent at all has a
model id, true otherwise. -/
def validate (c : FullConfig) : Bool :=
  if c.github.token = "" then false
  else if c.github.username = "" then false
  else if !(c.architect.model_id ≠ "" || c.developer.model_id ≠ ""
            || c.tester.model_id ≠ "" || c.reviewer.model_id ≠ "") then false
  else true

/-! ### Concrete sample inputs used by witnesses and counterexamples -/

/-- A first execution that timed out (the exact result
`CodeTools.execute_code` produces on `subprocess.TimeoutExpired`). -/
def envTimeoutFirst : RecoveryEnv :=
  { firstExec := { stdout := "", stderr := "Execution timed out (10 seconds)",
                   exit_code := -1, status := ExecStatus.timeout },
    repairResponse := some "fixed = True",
    secondExec := { stdout := "", stderr := "", exit_code := 0,
                    status := ExecStatus.success } }

/-- A first execution that failed, a repair response carrying code, and a
second execution that failed again. -/
def envErrFirst : RecoveryEnv :=
  { firstExec := { stdout := "", stderr := "NameError: name x is not defined",
                   exit_code := 1, status := ExecStatus.error },
    repairResponse := some "x = 0",
    secondExec := { stdout := "", stderr := "TypeError", exit_code := 1,
                    status := ExecStatus.error } }

/-- A recovery environment in which the first execution succeeds. -/
def envOkFirst : RecoveryEnv :=
  { firstExec := { stdout := "ok", stderr := "", exit_code := 0,
                   status := ExecStatus.success },
    repairResponse := none,
    secondExec := { stdout := "", stderr := "", exit_code := 0,
                    status := ExecStatus.success } }

/-- A VCS environment whose branch creation failed (tagged result). -/
def vcsBranchFailed : VcsEnv :=
  { repositoryConfigured := true,
    branchResult := { status := "error", message := "boom" },
    commitResult := { status := "success", message := "ok" },
    prResult := { status := "success", message := "ok" } }

/-- A feature environment in which every artifact executes successfully
on the first attempt and no repository is configured. -/
def envFeatureOk : FeatureEnv :=
  { implResult := { code := some "def f(): return 1", summary := some "impl" },
    implRecovery := envOkFirst,
    testResult := { test_code := some "assert f() == 1", summary := some "tests" },
    testRecovery := envOkFirst,
    vcs := { repositoryConfigured := false,
             branchResult := { status := "success", message := "" },
             commitResult := { status := "success", message := "" },
             prResult := { status := "success", message := "" } } }

/-- A feature environment whose implementation artifact permanently
fails, with a configured repository and a failed branch creation. -/
def envFeatureImplFails : FeatureEnv :=
  { implResult := { code := some "broken(", summary := none },
    implRecovery := envErrFirst,
    testResult := { test_code := none, summary := none },
    testRecovery := envOkFirst,
    vcs := vcsBranchFailed }

/-- Git environment: no local clone yet, a repository configured, and a
`git clone` that fails. -/
def gitEnvCloneFail : GitEnv :=
  { localRepoPath := none,
    repositorySet := true,
    clonePath := "/tmp/code_agent_repo_x",
    cloneReturncode := 128,
    cloneStderr := "fatal: could not read from remote repository",
    checkoutNew := { stdout := "", stderr := "", returncode := 0 },
    pushBranch := { stdout := "", stderr := "", returncode := 0 },
    checkoutBranch := { stdout := "", stderr := "", returncode := 0 },
    commitCmd := { stdout := "", stderr := "", returncode := 0 },
    pushCmd := { stdout := "", stderr := "", returncode := 0 } }

/-- Git environment: a local clone exists and `git checkout -b` fails. -/
def gitEnvCheckoutFail : GitEnv :=
  { localRepoPath := some "/tmp/code_agent_repo_y",
    repositorySet := true,
    clonePath := "/tmp/code_agent_repo_y",
    cloneReturncode := 0,
    cloneStderr := "",
    checkoutNew := { stdout := "", stderr := "branch exists", returncode := 128 },
    pushBranch := { stdout := "", stderr := "", returncode := 0 },
    checkoutBranch := { stdout := "", stderr := "", returncode := 0 },
    commitCmd := { stdout := "", stderr := "", returncode := 0 },
    pushCmd := { stdout := "", stderr := "", returncode := 0 } }

/-- An architect result that is a dictionary with neither a `features`
nor a `components` entry. -/
def emptyResults : AgentResults := AgentResults.dict { features := none, components := none }

/-- Code points of the ASCII branch name `Feature/Login`. -/
def featureLoginCodes : List Nat :=
  [70, 101, 97, 116, 117, 114, 101, 47, 76, 111, 103, 105, 110]

end CodeAgent

namespace CodeAgent

/-- C9: for every outcome of the underlying subprocess run, `execute_code`
returns a dictionary with all four of `stdout`, `stderr`, `exit_code`,
`status`; the status is one of `success`, `error`, `timeout`; the status
is `success` exactly when the exit code is `0`; and the timeout and
internal-failure branches always report exit code `-1`. -/
theorem execute_code_result_shape (o : RunOutcome) :
    ((execute_code o).lookup "stdout").isSome = true ∧
    ((execute_code o).lookup "stderr").isSome = true ∧
    ((execute_code o).lookup "exit_code").isSome = true ∧
    (∃ st, (execute_code o).lookup "status" = some (.str st) ∧
      (st = "success" ∨ st = "error" ∨ st = "timeout")) ∧
    ((execute_code o).lookup "status" = some (.str "success") ↔
      (execute_code o).lookup "exit_code" = some (.int 0)) ∧
    ((execute_code RunOutcome.timedOut).lookup "exit_code" = some (.int (-1)) ∧
     (∀ m, (execute_code (RunOutcome.raised m)).lookup "exit_code" = some (.int (-1)))) := by
  cases o with
  | completed out err rc =>
    by_cases h : rc = 0
    · subst h
      exact ⟨rfl, rfl, rfl, ⟨"success", rfl, Or.inl rfl⟩,
        by constructor <;> intro _ <;> rfl, rfl, fun m => rfl⟩
    · refine ⟨rfl, rfl, rfl, ⟨"error", ?_, Or.inr (Or.inl rfl)⟩, ?_, rfl, fun m => rfl⟩
      · simp only [execute_code, if_neg h]; rfl
      · constructor
        · intro hc
          simp only [execute_code, if_neg h] at hc
          exact absurd hc (by simp [List.lookup])
        · intro hc
          have : PyVal.int rc = PyVal.int 0 := by
            simpa [execute_code, List.lookup] using hc
          cases this; exact absurd rfl h
  | timedOut =>
    refine ⟨rfl, rfl, rfl, ⟨"timeout", rfl, Or.inr (Or.inr rfl)⟩, ?_, rfl, fun m => rfl⟩
    constructor <;> intro hc <;> simpa [execute_code, List.lookup] using hc
  | raised m =>
    refine ⟨rfl, rfl, rfl, ⟨"error", rfl, Or.inr (Or.inl rfl)⟩, ?_, rfl, fun m => rfl⟩
    constructor <;> intro hc <;> simpa [execute_code, List.lookup] using hc

/-- C1 counterexample: a first execution with the non-success status
`timeout` triggers no repair re-invocation at all — one execution
attempt, zero repairs, and the timed-out artifact is accepted unrepaired
(the source only repairs on status `error`). -/
theorem recovery_timeout_not_repaired :
    envTimeoutFirst.firstExec.status = ExecStatus.timeout ∧
    (run_with_recovery "import time" envTimeoutFirst).repairInvocations = 0 ∧
    (run_with_recovery "import time" envTimeoutFirst).execAttempts = 1 ∧
    (run_with_recovery "import time" envTimeoutFirst).outcome =
      RecoveryOutcome.accepted "import time" envTimeoutFirst.firstExec := by
  refine ⟨rfl, ?_, ?_, ?_⟩ <;> rfl

/-- C1 amended: the execute/repair sequence issues at most 2 execution
attempts and at most 1 repair re-invocation for any collaborator
behavior; a first execution with status `error` triggers exactly one
repair re-invocation, with exactly one further execution when the repair
response carries code (the second result terminal on a second failure)
and none otherwise; a first execution with any other status (success or
timeout) triggers no repair and the artifact is accepted as-is. -/
theorem run_with_recovery_bounded (code : String) (env : RecoveryEnv) :
    (run_with_recovery code env).execAttempts ≤ 2 ∧
    (run_with_recovery code env).repairInvocations ≤ 1 ∧
    (env.firstExec.status = ExecStatus.error →
      (run_with_recovery code env).repairInvocations = 1 ∧
      (∀ fixedCode, env.repairResponse = some fixedCode →
        (run_with_recovery code env).execAttempts = 2 ∧
        (env.secondExec.status = ExecStatus.error →
          (run_with_recovery code env).outcome = RecoveryOutcome.execFailed env.secondExec) ∧
        (env.secondExec.status ≠ ExecStatus.error →
          (run_with_recovery code env).outcome = RecoveryOutcome.accepted fixedCode env.secondExec)) ∧
      (env.repairResponse = none →
        (run_with_recovery code env).execAttempts = 1 ∧
        (run_with_recovery code env).outcome = RecoveryOutcome.repairFailed)) ∧
    (env.firstExec.status ≠ ExecStatus.error →
      (run_with_recovery code env).repairInvocations = 0 ∧
      (run_with_recovery code env).execAttempts = 1 ∧
      (run_with_recovery code env).outcome = RecoveryOutcome.accepted code env.firstExec) := by
  by_cases h1 : env.firstExec.status = ExecStatus.error
  · cases hr : env.repairResponse with
    | none => simp [run_with_recovery, h1, hr]
    | some f =>
      by_cases h2 : env.secondExec.status = ExecStatus.error <;>
        simp [run_with_recovery, h1, hr, h2]
  · simp [run_with_recovery, h1]

/-- C1 amended witness: at a concrete environment whose first execution
fails with status `error`, whose repair response carries code, and whose
second execution fails again, the sequence issued exactly one repair,
exactly two executions, and returned the second result as terminal. -/
theorem run_with_recovery_bounded_witness :
    (run_with_recovery "broken(" envErrFirst).repairInvocations = 1 ∧
    (run_with_recovery "broken(" envErrFirst).execAttempts = 2 ∧
    (run_with_recovery "broken(" envErrFirst).outcome =
      RecoveryOutcome.execFailed envErrFirst.secondExec := by
  have h := run_with_recovery_bounded "broken(" envErrFirst
  refine ⟨(h.2.2.1 rfl).1, ?_, ?_⟩
  · exact ((h.2.2.1 rfl).2.1 "x = 0" rfl).1
  · exact ((h.2.2.1 rfl).2.1 "x = 0" rfl).2.1 rfl

/-- Folding append of singletons is mapping. -/
theorem foldl_append_eq_map {α β : Type} (f : α → β) (l : List α) (acc : List β) :
    l.foldl (fun a x => a ++ [f x]) acc = acc ++ l.map f := by
  induction l generalizing acc with
  | nil => simp
  | cons x xs ih => simp [List.foldl_cons, ih]

/-- The feature loop of `build_project` produces exactly the map of
`implement_feature` over the feature list. -/
theorem build_project_eq_map (features : List (Feature × FeatureEnv)) :
    build_project features =
      features.map (fun fe => (implement_feature fe.1 fe.2).outcome) := by
  simpa [build_project] using
    foldl_append_eq_map (fun fe => (implement_feature fe.1 fe.2).outcome) features []

/-- The execute/repair sequence accepts the artifact exactly when it does
not permanently fail. -/
theorem recovery_isAccepted (code : String) (renv : RecoveryEnv) :
    ((run_with_recovery code renv).outcome).isAccepted = !(recoveryFails renv) := by
  by_cases h1 : renv.firstExec.status = ExecStatus.error
  · cases hr : renv.repairResponse with
    | none =>
      simp [run_with_recovery, recoveryFails, h1, hr, RecoveryOutcome.isAccepted]
    | some f =>
      by_cases h2 : renv.secondExec.status = ExecStatus.error <;>
        simp [run_with_recovery, recoveryFails, h1, hr, h2, RecoveryOutcome.isAccepted]
  · simp [run_with_recovery, recoveryFails, h1, RecoveryOutcome.isAccepted]

/-- The commit/pull-request tail always returns the success dictionary. -/
theorem finish_outcome (f : Feature) (env : FeatureEnv) (impl : ImplResult)
    (t : TestResult) (logs : List String) :
    (implement_feature_finish f env impl t logs).outcome = FeatureOutcome.ok f impl t := by
  unfold implement_feature_finish
  split_ifs <;> rfl

/-- The commit/pull-request tail only appends to the log. -/
theorem finish_logs (f : Feature) (env : FeatureEnv) (impl : ImplResult)
    (t : TestResult) (logs : List String) :
    ∃ s, (implement_feature_finish f env impl t logs).errorLogs = logs ++ s := by
  unfold implement_feature_finish
  split_ifs
  exacts [⟨_, rfl⟩, ⟨_, rfl⟩, ⟨[], by simp⟩, ⟨[], by simp⟩]

/-- Status of the test half: error exactly when the test artifact
permanently fails. -/
theorem implement_feature_tests_status (f : Feature) (env : FeatureEnv)
    (impl : ImplResult) (logs : List String) :
    ((implement_feature_tests f env impl logs).outcome).status =
      (if testPermFail env then "error" else "success") := by
  rcases htc : env.testResult.test_code with _ | tc
  · simp [implement_feature_tests, htc, testPermFail, finish_outcome, FeatureOutcome.status]
  · have hacc := recovery_isAccepted tc env.testRecovery
    rcases ho : (run_with_recovery tc env.testRecovery).outcome with fc | d | _ <;>
      rw [ho] at hacc <;> simp [RecoveryOutcome.isAccepted] at hacc <;>
      simp [implement_feature_tests, htc, ho, finish_outcome, FeatureOutcome.status,
        testPermFail, hacc]

/-- Outcome of the test half is independent of the VCS results and of the
log accumulator. -/
theorem implement_feature_tests_indep (f : Feature) (env : FeatureEnv) (v : VcsEnv)
    (impl : ImplResult) (logs1 logs2 : List String) :
    (implement_feature_tests f { env with vcs := v } impl logs1).outcome =
      (implement_feature_tests f env impl logs2).outcome := by
  cases env with
  | mk ir irc tr trc vc =>
    rcases htc : tr.test_code with _ | tc
    · simp [implement_feature_tests, htc, finish_outcome]
    · rcases ho : (run_with_recovery tc trc).outcome with fc | d | _ <;>
        simp [implement_feature_tests, htc, ho, finish_outcome]

/-- The test half only appends to the log. -/
theorem implement_feature_tests_logs (f : Feature) (env : FeatureEnv)
    (impl : ImplResult) (logs : List String) :
    ∃ s, (implement_feature_tests f env impl logs).errorLogs = logs ++ s := by
  rcases htc : env.testResult.test_code with _ | tc
  · simpa [implement_feature_tests, htc] using finish_logs f env impl env.testResult logs
  · rcases ho : (run_with_recovery tc env.testRecovery).outcome with fc | d | _
    · simpa [implement_feature_tests, htc, ho] using
        finish_logs f env impl { env.testResult with test_code := some fc } logs
    · exact ⟨["Failed to execute tests after fix attempt: " ++ d.stderr],
        by simp [implement_feature_tests, htc, ho]⟩
    · exact ⟨["Failed to get fixed code from tester agent"],
        by simp [implement_feature_tests, htc, ho]⟩

/-- Status of one feature's pipeline step: error exactly when the
implementation or the test artifact permanently fails. -/
theorem implement_feature_status (f : Feature) (env : FeatureEnv) :
    ((implement_feature f env).outcome).status =
      (if implPermFail env || testPermFail env then "error" else "success") := by
  rcases hc : env.implResult.code with _ | c
  · have h1 : implPermFail env = false := by simp [implPermFail, hc]
    simp [implement_feature, hc, h1, implement_feature_tests_status]
  · have hacc := recovery_isAccepted c env.implRecovery
    rcases ho : (run_with_recovery c env.implRecovery).outcome with fc | d | _ <;>
      rw [ho] at hacc <;> simp [RecoveryOutcome.isAccepted] at hacc
    · have h1 : implPermFail env = false := by simp [implPermFail, hc, hacc]
      simp [implement_feature, hc, ho, h1, implement_feature_tests_status]
    · have h1 : implPermFail env = true := by simp [implPermFail, hc, hacc]
      simp [implement_feature, hc, ho, h1, FeatureOutcome.status]
    · have h1 : implPermFail env = true := by simp [implPermFail, hc, hacc]
      simp [implement_feature, hc, ho, h1, FeatureOutcome.status]

/-- C4: the build processes the discovered features in order, producing
exactly one result per feature at the feature's own position, and a
feature's result reads `error` exactly when that feature's own artifacts
permanently failed — other features' entries are untouched, so isolated
failures do not abort or disturb the rest of the build. -/
theorem build_project_feature_isolation (features : List (Feature × FeatureEnv)) :
    (build_project features).length = features.length ∧
    (∀ i : Nat, (build_project features)[i]? =
       (features[i]?).map (fun fe => (implement_feature fe.1 fe.2).outcome)) ∧
    (∀ i : Nat, ((build_project features)[i]?).map FeatureOutcome.status =
       (features[i]?).map (fun fe =>
         if implPermFail fe.2 || testPermFail fe.2 then "error" else "success")) := by
  refine ⟨by simp [build_project_eq_map], ?_, ?_⟩
  · intro i
    simp [build_project_eq_map]
  · intro i
    rcases h : features[i]? with _ | fe
    · simp [build_project_eq_map, h]
    · simp [build_project_eq_map, h, implement_feature_status]

/-- C5: when the architecture results yield zero extractable features,
feature extraction returns exactly the single synthetic default feature
(named for core functionality), extraction never returns an empty list,
and the default feature is what the build pipeline then processes. -/
theorem extract_features_fallback (r : AgentResults) :
    (extract_features_from_results r).isEmpty = false ∧
    (raw_features r = [] →
      extract_features_from_results r = [core_feature] ∧
      (∀ env : FeatureEnv,
        build_project ((extract_features_from_results r).map (fun f => (f, env))) =
          [(implement_feature core_feature env).outcome])) := by
  constructor
  · by_cases h : (raw_features r).isEmpty
    · simp [extract_features_from_results, h]
    · simpa [extract_features_from_results, h] using h
  · intro hraw
    have he : extract_features_from_results r = [core_feature] := by
      simp [extract_features_from_results, hraw]
    refine ⟨he, fun env => ?_⟩
    rw [he]
    simp [build_project_eq_map]

/-- Outcome of one feature's pipeline step is independent of the VCS
results. -/
theorem implement_feature_vcs_indep (f : Feature) (env : FeatureEnv) (v : VcsEnv) :
    (implement_feature f { env with vcs := v }).outcome =
      (implement_feature f env).outcome := by
  cases env with
  | mk ir irc tr trc vc =>
    rcases hc : ir.code with _ | c
    · simp only [implement_feature, hc]
      exact implement_feature_tests_indep f ⟨ir, irc, tr, trc, vc⟩ v ir _ _
    · rcases ho : (run_with_recovery c irc).outcome with fc | d | _
      · simp only [implement_feature, hc, ho]
        exact implement_feature_tests_indep f ⟨ir, irc, tr, trc, vc⟩ v
          { ir with code := some fc } _ _
      · simp [implement_feature, hc, ho]
      · simp [implement_feature, hc, ho]

/-- Every step of one feature's pipeline only appends to the branch-step
log. -/
theorem implement_feature_logs_prefix (f : Feature) (env : FeatureEnv) :
    ∃ s, (implement_feature f env).errorLogs = branch_logs env ++ s := by
  rcases hc : env.implResult.code with _ | c
  · simpa [implement_feature, hc] using
      implement_feature_tests_logs f env env.implResult (branch_logs env)
  · rcases ho : (run_with_recovery c env.implRecovery).outcome with fc | d | _
    · simpa [implement_feature, hc, ho] using
        implement_feature_tests_logs f env { env.implResult with code := some fc }
          (branch_logs env)
    · exact ⟨["Failed to execute implementation after fix attempt: " ++ d.stderr],
        by simp [implement_feature, hc, ho]⟩
    · exact ⟨["Failed to get fixed code from developer agent"],
        by simp [implement_feature, hc, ho]⟩

/-- C7 counterexample: when no local clone exists yet and the lazy
`git clone` inside `create_branch` fails, the failure is not returned as
a tagged status/message result — the exception escapes the operation
(and would propagate out of the calling pipeline step). -/
theorem create_branch_clone_failure_raises :
    create_branch "feature/user-login" gitEnvCloneFail =
      Except.error (PyExn.genericExn
        "Failed to clone repository: fatal: could not read from remote repository") := by
  rfl

/-- C7 amended: git branch-creation and push failures return tagged
error results once a local clone exists; `commit_changes` always returns
a tagged success/warning/error result; `create_pull_request` never
raises, but its failures are bare `error`-keyed dictionaries without a
status tag; a feature's returned outcome is independent of every VCS
result, and a failed branch creation is logged.  However (see the
counterexample) `create_branch` propagates an exception when its lazy
clone fails. -/
theorem vcs_failures_tagged_and_isolated :
    (∀ (name : String) (env : GitEnv) (p : String), env.localRepoPath = some p →
       ∃ t : TaggedResult, create_branch name env = Except.ok t ∧
         (t.status = "success" ∨ t.status = "error")) ∧
    (∀ (m : String) (branch : Option String) (env : GitEnv),
       (commit_changes m branch env).status = "success" ∨
       (commit_changes m branch env).status = "warning" ∨
       (commit_changes m branch env).status = "error") ∧
    (∀ (api : GithubApiOutcome) (title body m : String),
       ((create_pull_request false api title body).lookup "status") = none ∧
       ((create_pull_request true (GithubApiOutcome.exn m) title body).lookup "status") = none ∧
       ((create_pull_request true (GithubApiOutcome.exn m) title body).lookup "error").isSome = true) ∧
    (∀ (f : Feature) (env : FeatureEnv) (v : VcsEnv),
       (implement_feature f { env with vcs := v }).outcome =
         (implement_feature f env).outcome) ∧
    (∀ (f : Feature) (env : FeatureEnv),
       env.vcs.repositoryConfigured = true → env.vcs.branchResult.status = "error" →
         ("Failed to create branch: " ++ env.vcs.branchResult.message) ∈
           (implement_feature f env).errorLogs) := by
  refine ⟨?_, ?_, ?_, ?_, ?_⟩
  · intro name env p h
    simp only [create_branch, h]
    split_ifs
    · exact ⟨_, rfl, Or.inr rfl⟩
    · exact ⟨_, rfl, Or.inr rfl⟩
    · exact ⟨_, rfl, Or.inl rfl⟩
  · intro m branch env
    unfold commit_changes commit_changes_push
    cases env.localRepoPath with
    | none => exact Or.inr (Or.inr rfl)
    | some p =>
      cases branch with
      | some b => split_ifs <;> simp
      | none => split_ifs <;> simp
  · intro api title body m
    exact ⟨rfl, rfl, rfl⟩
  · exact implement_feature_vcs_indep
  · intro f env h1 h2
    obtain ⟨s, hs⟩ := implement_feature_logs_prefix f env
    rw [hs]
    have hb : branch_logs env =
        ["Failed to create branch: " ++ env.vcs.branchResult.message] := by
      simp [branch_logs, h1, h2]
    rw [hb]
    simp

/-- C2 counterexample: with the filesystem collaborator unavailable (the
first argument) and no other capability configured, orchestrator tool
construction still succeeds — every non-GitHub group including
filesystem is registered unconditionally and no ConfigurationError is
raised, refuting both directions of the claimed gate. -/
theorem init_tools_no_gate_counterexample :
    init_tools false "" "" "" (Except.ok ()) =
      Except.ok [ToolGroup.filesystem, ToolGroup.code, ToolGroup.test] ∧
    raisesConfigurationError (init_tools false "" "" "" (Except.ok ())) = false := by
  exact ⟨rfl, rfl⟩

/-- C2 amended: orchestrator tool construction never raises a
ConfigurationError for any configuration or environment; the filesystem
group is registered unconditionally (no availability check exists), the
GitHub group is registered exactly when both a token and a username are
configured, and the only possible failure is a propagated GitHub
connection exception, which requires credentials and a repository
name. -/
theorem init_tools_no_capability_gate (fs : Bool) (token username repository : String)
    (connect : Except String Unit) :
    raisesConfigurationError (init_tools fs token username repository connect) = false ∧
    (∀ gs, init_tools fs token username repository connect = Except.ok gs →
       ToolGroup.filesystem ∈ gs ∧
       (ToolGroup.github ∈ gs ↔ githubAvailable token username = true)) ∧
    (∀ e, init_tools fs token username repository connect = Except.error e →
       ∃ m, e = PyExn.githubException m ∧ connect = Except.error m ∧
         githubAvailable token username = true ∧ repository ≠ "") := by
  unfold init_tools raisesConfigurationError githubAvailable
  split_ifs with h1 h2 <;>
    simp only [Bool.and_eq_true, decide_eq_true_eq] at h1
  · cases connect with
    | error m =>
      refine ⟨rfl, ?_, ?_⟩
      · intro gs hgs
        cases hgs
      · intro e he
        cases he
        exact ⟨m, rfl, rfl, by simp [h1.1, h1.2], h2⟩
    | ok u =>
      refine ⟨rfl, ?_, ?_⟩
      · intro gs hgs
        cases hgs
        simp [h1]
      · intro e he
        cases he
  · refine ⟨rfl, ?_, ?_⟩
    · intro gs hgs
      cases hgs
      simp [h1]
    · intro e he
      cases he
  · refine ⟨rfl, ?_, ?_⟩
    · intro gs hgs
      cases hgs
      simp [h1]
    · intro e he
      cases he

/-- C3: a tool binding whose backing collaborator group is unavailable is
absent from the constructed agent's tool list — with GitHub unavailable
no GitHub-backed binding appears for any role — and every entry of a
constructed tool list is a genuine (non-None) candidate, so no
placeholder or null entry is ever passed to an agent. -/
theorem capability_filtering :
    (∀ (r : Role) (t : ToolRef), requiresGithub t = true → t ∉ agent_tools r false) ∧
    (∀ (candidates : List (Option ToolRef)) (t : ToolRef),
       t ∈ create_agent_tools candidates → some t ∈ candidates) := by
  constructor
  · decide
  · intro candidates t h
    simp only [create_agent_tools, List.mem_filterMap, id] at h
    obtain ⟨o, ho, rfl⟩ := h
    exact ho

/-- C3 witness: the developer role's GitHub-backed commit binding is a
GitHub-group binding and is absent from the developer agent constructed
without GitHub. -/
theorem capability_filtering_witness :
    requiresGithub ToolRef.commit_changes_tool = true ∧
    ToolRef.commit_changes_tool ∉ agent_tools Role.developer false := by
  exact ⟨rfl, capability_filtering.1 Role.developer ToolRef.commit_changes_tool rfl⟩

/-- C6 counterexample: a configuration file may set the architect's model
id to the empty string; `Config` passes it through and
`_init_agents` still constructs every agent — no
MissingModelConfiguration error is raised and no failures are collected,
refuting the claimed fail-with-aggregation behavior. -/
theorem missing_model_not_rejected :
    (config_agents
      { architectModel := none, developerModel := none,
        testerModel := none, reviewerModel := none }
      { architectModel := some "", developerModel := none,
        testerModel := none, reviewerModel := none }) =
      [{ name := "architect", model_id := "" },
       { name := "developer", model_id := defaultModel },
       { name := "tester", model_id := defaultModel },
       { name := "reviewer", model_id := defaultModel }] ∧
    init_agents
      (config_agents
        { architectModel := none, developerModel := none,
          testerModel := none, reviewerModel := none }
        { architectModel := some "", developerModel := none,
          testerModel := none, reviewerModel := none }) =
      Except.ok [("architect", ""), ("developer", defaultModel),
                 ("tester", defaultModel), ("reviewer", defaultModel)] := by
  exact ⟨rfl, rfl⟩

/-- C6 amended: agent construction never fails on a missing model id —
`_init_agents` unconditionally builds one model per configured agent
and returns them all — and a role's resolved model id is empty exactly
when its environment variable is unset-or-empty while the configuration
file explicitly carries an empty id; with no file entry, the non-empty
built-in default applies. -/
theorem init_agents_never_fails (agents : List AgentConfig) :
    init_agents agents = Except.ok (agents.map (fun a => (a.name, a.model_id))) ∧
    (∀ (ev fv : Option String),
       (resolve_model_id ev fv = "" ↔ ((ev = none ∨ ev = some "") ∧ fv = some ""))) ∧
    defaultModel.isEmpty = false := by
  refine ⟨rfl, ?_, rfl⟩
  intro ev fv
  cases ev with
  | none =>
    cases fv with
    | none => simp [resolve_model_id, defaultModel]
    | some s => simp [resolve_model_id]
  | some s =>
    by_cases hs : s = ""
    · subst hs
      cases fv with
      | none => simp [resolve_model_id, defaultModel]
      | some t => simp [resolve_model_id]
    · simp [resolve_model_id, hs]

/-- C8 counterexample: a configuration giving all four mandatory roles a
non-empty model id but no GitHub token fails validation — the gate does
require a GitHub credential, refuting the claim. -/
theorem validate_requires_github_counterexample :
    validate
      { github := { token := "", username := "u", repository := "" },
        architect := { name := "architect", model_id := "m" },
        developer := { name := "developer", model_id := "m" },
        tester := { name := "tester", model_id := "m" },
        reviewer := { name := "reviewer", model_id := "m" } } = false := by
  rfl

/-- C8 amended: `Config.validate` succeeds exactly when the GitHub token
and username are both non-empty and at least one (not: each) of the four
role configurations carries a non-empty model id; GitHub credentials are
required, and three roles may lack a model id without failing the
gate. -/
theorem validate_characterization (c : FullConfig) :
    validate c = true ↔
      (c.github.token ≠ "" ∧ c.github.username ≠ "" ∧
       (c.architect.model_id ≠ "" ∨ c.developer.model_id ≠ "" ∨
        c.tester.model_id ≠ "" ∨ c.reviewer.model_id ≠ "")) := by
  unfold validate
  split_ifs with h1 h2 h3
  · simp [h1]
  · simp [h1, h2]
  · constructor
    · intro hfalse
      cases hfalse
    · intro hr
      exfalso
      simp only [Bool.not_eq_true] at h3
      rcases hr.2.2 with h | h | h | h <;> simp_all
  · constructor
    · intro _
      refine ⟨h1, h2, ?_⟩
      by_contra hall
      push_neg at hall
      simp_all
    · intro _
      rfl

/-- Characters produced by the first substitution are word characters or
dashes. -/
theorem mem_subNonword (l : List Nat) (c : Nat) (hc : c ∈ subNonword l) :
    (isWordCode c || c == dashCode) = true := by
  simp only [subNonword, List.mem_map] at hc
  obtain ⟨a, _, rfl⟩ := hc
  by_cases h : (isWordCode a || a == dashCode) = true
  · rw [if_pos h]
    exact h
  · rw [if_neg h]
    decide

/-- Lowercasing keeps word characters in the word class. -/
theorem asciiLower_word (c : Nat) (h : isWordCode c = true) :
    isWordCode (asciiLower c) = true := by
  unfold asciiLower
  split_ifs with hu
  · simp only [isUpperCode, Bool.and_eq_true, decide_eq_true_eq] at hu
    simp only [isWordCode, isLowerCode, isUpperCode, isDigitCode,
      Bool.or_eq_true, Bool.and_eq_true, decide_eq_true_eq, beq_iff_eq]
    omega
  · exact h

/-- Lowercasing never yields an uppercase letter. -/
theorem asciiLower_not_upper (c : Nat) : isUpperCode (asciiLower c) = false := by
  rw [Bool.eq_false_iff]
  intro h
  unfold asciiLower at h
  split_ifs at h with hu
  · simp only [isUpperCode, Bool.and_eq_true, decide_eq_true_eq] at hu h
    omega
  · exact hu h

/-- Lowercasing maps dashes to dashes and nothing else to a dash. -/
theorem asciiLower_beq_dash (c : Nat) : (asciiLower c == dashCode) = (c == dashCode) := by
  unfold asciiLower
  split_ifs with hu
  · simp only [isUpperCode, Bool.and_eq_true, decide_eq_true_eq] at hu
    have h1 : c + 32 ≠ dashCode := by unfold dashCode; omega
    have h2 : c ≠ dashCode := by unfold dashCode; omega
    rw [beq_eq_false_iff_ne.mpr h1, beq_eq_false_iff_ne.mpr h2]
  · rfl

/-- Lowercasing keeps the word-or-dash character class. -/
theorem asciiLower_wordOrDash (c : Nat) (h : (isWordCode c || c == dashCode) = true) :
    (isWordCode (asciiLower c) || asciiLower c == dashCode) = true := by
  rcases Bool.or_eq_true_iff.mp h with hw | hd
  · exact Bool.or_eq_true_iff.mpr (Or.inl (asciiLower_word c hw))
  · rw [asciiLower_beq_dash]
    exact Bool.or_eq_true_iff.mpr (Or.inr hd)

/-- Unfolding equation of `collapseDashes` when the tail collapses to
nil. -/
theorem collapseDashes_cons_nil (a : Nat) (rest : List Nat)
    (hr : collapseDashes rest = []) : collapseDashes (a :: rest) = [a] := by
  rw [collapseDashes, hr]

/-- Unfolding equation of `collapseDashes` when the tail collapses to a
cons. -/
theorem collapseDashes_cons_cons (a d : Nat) (t rest : List Nat)
    (hr : collapseDashes rest = d :: t) :
    collapseDashes (a :: rest) =
      (if a == dashCode && d == dashCode then d :: t else a :: d :: t) := by
  rw [collapseDashes, hr]

/-- Characters of the collapsed list come from the input. -/
theorem mem_collapseDashes (l : List Nat) (c : Nat) (hc : c ∈ collapseDashes l) :
    c ∈ l := by
  induction l with
  | nil => simpa [collapseDashes] using hc
  | cons a rest ih =>
    rcases hr : collapseDashes rest with _ | ⟨d, t⟩
    · rw [collapseDashes_cons_nil a rest hr] at hc
      simp only [List.mem_singleton] at hc
      simp [hc]
    · rw [collapseDashes_cons_cons a d t rest hr] at hc
      split_ifs at hc with hdd
      · have hc3 : c ∈ collapseDashes rest := by rw [hr]; exact hc
        exact List.mem_cons_of_mem a (ih hc3)
      · rcases List.mem_cons.mp hc with rfl | hc2
        · exact List.mem_cons_self _ _
        · have hc3 : c ∈ collapseDashes rest := by rw [hr]; exact hc2
          exact List.mem_cons_of_mem _ (ih hc3)

/-- A list with no adjacent dashes has none in its tail. -/
theorem hasDD_cons_false (a : Nat) (rest : List Nat) (h : hasDD (a :: rest) = false) :
    hasDD rest = false := by
  cases rest with
  | nil => rfl
  | cons b t =>
    rw [hasDD, Bool.or_eq_false_iff] at h
    exact h.2

/-- The collapsed list has no adjacent dashes. -/
theorem hasDD_collapseDashes (l : List Nat) : hasDD (collapseDashes l) = false := by
  induction l with
  | nil => rfl
  | cons a rest ih =>
    rcases hr : collapseDashes rest with _ | ⟨d, t⟩
    · rw [collapseDashes_cons_nil a rest hr]
      rfl
    · rw [collapseDashes_cons_cons a d t rest hr]
      rw [hr] at ih
      split_ifs with hdd
      · exact ih
      · rw [hasDD, Bool.or_eq_false_iff]
        exact ⟨Bool.eq_false_iff.mpr hdd, ih⟩

/-- Collapsing is the identity on lists with no adjacent dashes. -/
theorem collapseDashes_id (l : List Nat) (h : hasDD l = false) :
    collapseDashes l = l := by
  induction l with
  | nil => rfl
  | cons a rest ih =>
    have hrest := hasDD_cons_false a rest h
    have hcol := ih hrest
    cases rest with
    | nil => rfl
    | cons b t =>
      rw [collapseDashes_cons_cons a b t (b :: t) hcol]
      rw [hasDD, Bool.or_eq_false_iff] at h
      split_ifs with hdd
      · rw [h.1] at hdd
        exact absurd hdd (by decide)
      · rfl

/-- Lowercasing is the identity on lists without uppercase letters. -/
theorem map_asciiLower_id (l : List Nat)
    (h : l.all (fun c => !(isUpperCode c)) = true) : l.map asciiLower = l := by
  induction l with
  | nil => rfl
  | cons a rest ih =>
    rw [List.all_cons, Bool.and_eq_true] at h
    have ha : asciiLower a = a := by
      unfold asciiLower
      rw [if_neg]
      simp only [Bool.not_eq_true'] at h
      simp [h.1]
    rw [List.map_cons, ha, ih h.2]

/-- The first substitution is the identity on word-or-dash lists. -/
theorem subNonword_id (l : List Nat)
    (h : l.all (fun c => isWordCode c || c == dashCode) = true) :
    subNonword l = l := by
  induction l with
  | nil => rfl
  | cons a rest ih =>
    rw [List.all_cons, Bool.and_eq_true] at h
    simp only [subNonword, List.map_cons]
    rw [if_pos h.1]
    have := ih h.2
    simp only [subNonword] at this
    rw [this]

/-- Lowercasing preserves the adjacent-dash structure. -/
theorem hasDD_map_asciiLower (l : List Nat) :
    hasDD (l.map asciiLower) = hasDD l := by
  induction l with
  | nil => rfl
  | cons a rest ih =>
    cases rest with
    | nil => rfl
    | cons b t =>
      simp only [List.map_cons] at ih ⊢
      rw [hasDD, hasDD, asciiLower_beq_dash, asciiLower_beq_dash, ih]

/-- Unfolding equation of `rstripDashes` when the tail strips to nil. -/
theorem rstripDashes_cons_nil (c : Nat) (rest : List Nat)
    (hr : rstripDashes rest = []) :
    rstripDashes (c :: rest) = (if c == dashCode then [] else [c]) := by
  rw [rstripDashes, hr]

/-- Unfolding equation of `rstripDashes` when the tail strips to a cons. -/
theorem rstripDashes_cons_cons (c d : Nat) (t rest : List Nat)
    (hr : rstripDashes rest = d :: t) :
    rstripDashes (c :: rest) = c :: d :: t := by
  rw [rstripDashes, hr]

/-- The head of a dropWhile result fails the predicate. -/
theorem head?_dropWhile_ne (p : Nat → Bool) (l : List Nat) (x : Nat)
    (h : (l.dropWhile p).head? = some x) : p x = false := by
  induction l with
  | nil => cases h
  | cons a rest ih =>
    by_cases hp : p a = true
    · rw [List.dropWhile_cons_of_pos hp] at h
      exact ih h
    · rw [List.dropWhile_cons_of_neg hp] at h
      simp only [List.head?_cons, Option.some.injEq] at h
      subst h
      exact Bool.eq_false_iff.mpr hp

/-- Members of a dropWhile result are members of the list. -/
theorem mem_dropWhile (p : Nat → Bool) (l : List Nat) (x : Nat)
    (h : x ∈ l.dropWhile p) : x ∈ l := by
  induction l with
  | nil => simpa using h
  | cons a rest ih =>
    by_cases hp : p a = true
    · rw [List.dropWhile_cons_of_pos hp] at h
      exact List.mem_cons_of_mem _ (ih h)
    · rw [List.dropWhile_cons_of_neg hp] at h
      exact h

/-- dropWhile preserves the absence of adjacent dashes. -/
theorem hasDD_dropWhile (p : Nat → Bool) (l : List Nat) (h : hasDD l = false) :
    hasDD (l.dropWhile p) = false := by
  induction l with
  | nil => simpa using h
  | cons a rest ih =>
    by_cases hp : p a = true
    · rw [List.dropWhile_cons_of_pos hp]
      exact ih (hasDD_cons_false a rest h)
    · rw [List.dropWhile_cons_of_neg hp]
      exact h

/-- dropWhile is the identity when the head fails the predicate. -/
theorem dropWhile_id_of_head (p : Nat → Bool) (l : List Nat)
    (h : ∀ x, l.head? = some x → p x = false) : l.dropWhile p = l := by
  cases l with
  | nil => rfl
  | cons a rest =>
    have ha := h a rfl
    rw [List.dropWhile_cons_of_neg (by simp [ha])]

/-- The last element of an rstrip result is not a dash. -/
theorem getLast?_rstripDashes (l : List Nat) (x : Nat)
    (h : (rstripDashes l).getLast? = some x) : (x == dashCode) = false := by
  induction l with
  | nil => cases h
  | cons c rest ih =>
    rcases hr : rstripDashes rest with _ | ⟨d, t⟩
    · rw [rstripDashes_cons_nil c rest hr] at h
      split_ifs at h with hc
      · cases h
      · simp only [List.getLast?_singleton, Option.some.injEq] at h
        subst h
        exact Bool.eq_false_iff.mpr hc
    · rw [rstripDashes_cons_cons c d t rest hr] at h
      rw [List.getLast?_cons_cons] at h
      rw [hr] at ih
      exact ih h

/-- An rstrip result that is a cons starts with the input's head. -/
theorem rstripDashes_head (l : List Nat) (d : Nat) (t : List Nat)
    (h : rstripDashes l = d :: t) : l.head? = some d := by
  cases l with
  | nil => cases h
  | cons c rest =>
    rcases hr : rstripDashes rest with _ | ⟨e, s⟩
    · rw [rstripDashes_cons_nil c rest hr] at h
      split_ifs at h with hc
      simp only [List.cons.injEq] at h
      obtain ⟨rfl, rfl⟩ := h
      rfl
    · rw [rstripDashes_cons_cons c e s rest hr] at h
      simp only [List.cons.injEq] at h
      obtain ⟨rfl, rfl, rfl⟩ := h
      rfl

/-- rstrip preserves the absence of adjacent dashes. -/
theorem hasDD_rstripDashes (l : List Nat) (h : hasDD l = false) :
    hasDD (rstripDashes l) = false := by
  induction l with
  | nil => rfl
  | cons c rest ih =>
    have hrest := hasDD_cons_false c rest h
    rcases hr : rstripDashes rest with _ | ⟨d, t⟩
    · rw [rstripDashes_cons_nil c rest hr]
      split_ifs <;> rfl
    · rw [rstripDashes_cons_cons c d t rest hr]
      have hh : rest.head? = some d := rstripDashes_head rest d t hr
      cases rest with
      | nil => cases hh
      | cons r0 rt =>
        simp only [List.head?_cons, Option.some.injEq] at hh
        subst hh
        rw [hasDD, Bool.or_eq_false_iff] at h
        rw [hasDD, Bool.or_eq_false_iff]
        refine ⟨h.1, ?_⟩
        have hdd := ih hrest
        rw [hr] at hdd
        exact hdd

/-- Members of an rstrip result are members of the list. -/
theorem mem_rstripDashes (l : List Nat) (x : Nat) (h : x ∈ rstripDashes l) :
    x ∈ l := by
  induction l with
  | nil => simpa [rstripDashes] using h
  | cons c rest ih =>
    rcases hr : rstripDashes rest with _ | ⟨d, t⟩
    · rw [rstripDashes_cons_nil c rest hr] at h
      split_ifs at h with hc
      · cases h
      · simp only [List.mem_singleton] at h
        simp [h]
    · rw [rstripDashes_cons_cons c d t rest hr] at h
      rcases List.mem_cons.mp h with rfl | h2
      · exact List.mem_cons_self _ _
      · have h3 : x ∈ rstripDashes rest := by rw [hr]; exact h2
        exact List.mem_cons_of_mem _ (ih h3)

/-- rstrip is the identity when the last element is not a dash. -/
theorem rstripDashes_id (l : List Nat)
    (h : ∀ x, l.getLast? = some x → (x == dashCode) = false) :
    rstripDashes l = l := by
  induction l with
  | nil => rfl
  | cons c rest ih =>
    cases rest with
    | nil =>
      have hc := h c rfl
      rw [rstripDashes_cons_nil c [] rfl]
      split_ifs with h2
      · rw [hc] at h2
        exact absurd h2 (by decide)
      · rfl
    | cons b t =>
      have hbt : rstripDashes (b :: t) = b :: t :=
        ih (fun x hx => h x (by rw [List.getLast?_cons_cons]; exact hx))
      rw [rstripDashes_cons_cons c b t (b :: t) hbt]

/-- The head of a stripped list is not a dash. -/
theorem stripDashes_head (l : List Nat) (x : Nat)
    (h : (stripDashes l).head? = some x) : (x == dashCode) = false := by
  unfold stripDashes at h
  rcases hs : rstripDashes (l.dropWhile (fun c => c == dashCode)) with _ | ⟨d, t⟩
  · rw [hs] at h
    cases h
  · rw [hs] at h
    simp only [List.head?_cons, Option.some.injEq] at h
    subst h
    exact head?_dropWhile_ne (fun c => c == dashCode) l d
      (rstripDashes_head (l.dropWhile (fun c => c == dashCode)) d t hs)

/-- The last element of a stripped list is not a dash. -/
theorem stripDashes_getLast (l : List Nat) (x : Nat)
    (h : (stripDashes l).getLast? = some x) : (x == dashCode) = false :=
  getLast?_rstripDashes _ x h

/-- Stripping preserves the absence of adjacent dashes. -/
theorem hasDD_stripDashes (l : List Nat) (h : hasDD l = false) :
    hasDD (stripDashes l) = false :=
  hasDD_rstripDashes _ (hasDD_dropWhile _ l h)

/-- Members of a stripped list are members of the list. -/
theorem mem_stripDashes (l : List Nat) (x : Nat) (h : x ∈ stripDashes l) :
    x ∈ l :=
  mem_dropWhile _ l x (mem_rstripDashes _ x h)

/-- Stripping is the identity when neither end is a dash. -/
theorem stripDashes_id (l : List Nat)
    (hh : ∀ x, l.head? = some x → (x == dashCode) = false)
    (hl : ∀ x, l.getLast? = some x → (x == dashCode) = false) :
    stripDashes l = l := by
  unfold stripDashes
  rw [dropWhile_id_of_head _ l hh]
  exact rstripDashes_id l hl

/-- Every character of a sanitized list is a word character or a dash. -/
theorem sanitize_codes_wordOrDash (l : List Nat) (c : Nat)
    (hc : c ∈ sanitize_codes l) : (isWordCode c || c == dashCode) = true := by
  have h3 := mem_stripDashes _ c hc
  simp only [List.mem_map] at h3
  obtain ⟨a, ha, rfl⟩ := h3
  exact asciiLower_wordOrDash a (mem_subNonword l a (mem_collapseDashes _ a ha))

/-- No character of a sanitized list is an uppercase letter. -/
theorem sanitize_codes_noUpper (l : List Nat) (c : Nat)
    (hc : c ∈ sanitize_codes l) : isUpperCode c = false := by
  have h3 := mem_stripDashes _ c hc
  simp only [List.mem_map] at h3
  obtain ⟨a, _, rfl⟩ := h3
  exact asciiLower_not_upper a

/-- ASCII core of the sanitizer: the ASCII-fragment pipeline is
idempotent and its output contains no uppercase letter, no two adjacent
dashes, and no leading or trailing dash.  (On its own this says nothing
about non-ASCII input; the claim-level statements below transfer it to
the full pipeline under an ASCII hypothesis.) -/
theorem sanitize_codes_idempotent_and_clean (l : List Nat) :
    sanitize_codes (sanitize_codes l) = sanitize_codes l ∧
    (sanitize_codes l).all (fun c => !(isUpperCode c)) = true ∧
    hasDD (sanitize_codes l) = false ∧
    (∀ x, (sanitize_codes l).head? = some x → (x == dashCode) = false) ∧
    (∀ x, (sanitize_codes l).getLast? = some x → (x == dashCode) = false) := by
  have hword : (sanitize_codes l).all (fun c => isWordCode c || c == dashCode) = true :=
    List.all_eq_true.mpr (fun c hc => sanitize_codes_wordOrDash l c hc)
  have hupper : (sanitize_codes l).all (fun c => !(isUpperCode c)) = true :=
    List.all_eq_true.mpr (fun c hc => by rw [sanitize_codes_noUpper l c hc]; rfl)
  have hdd : hasDD (sanitize_codes l) = false := by
    unfold sanitize_codes
    exact hasDD_stripDashes _ (by rw [hasDD_map_asciiLower]; exact hasDD_collapseDashes _)
  refine ⟨?_, hupper, hdd, stripDashes_head _, stripDashes_getLast _⟩
  show stripDashes ((collapseDashes (subNonword (sanitize_codes l))).map asciiLower) =
    sanitize_codes l
  rw [subNonword_id _ hword, collapseDashes_id _ hdd, map_asciiLower_id _ hupper]
  exact stripDashes_id _ (stripDashes_head _) (stripDashes_getLast _)

/-- The modelled word class agrees with the ASCII fragment below 128. -/
theorem pyIsWord_ascii (c : Nat) (h : c < 128) : pyIsWord c = isWordCode c := by
  unfold pyIsWord
  have hc : (c == 304) = false := beq_eq_false_iff_ne.mpr (by omega)
  rw [hc, Bool.or_false]

/-- The modelled lowercase map agrees with the ASCII fragment below
128. -/
theorem pyLowerChar_ascii (c : Nat) (h : c < 128) : pyLowerChar c = [asciiLower c] := by
  unfold pyLowerChar
  split_ifs with hc
  · rw [beq_iff_eq] at hc
    omega
  · rfl

/-- On ASCII lists the modelled lowercasing is the ASCII map. -/
theorem pyLower_ascii (l : List Nat) (h : ∀ c ∈ l, c < 128) :
    pyLower l = l.map asciiLower := by
  induction l with
  | nil => rfl
  | cons a rest ih =>
    have ha := pyLowerChar_ascii a (h a (List.mem_cons_self _ _))
    have hr := ih (fun c hc => h c (List.mem_cons_of_mem _ hc))
    show pyLowerChar a ++ pyLower rest = (a :: rest).map asciiLower
    rw [ha, hr]
    rfl

/-- On ASCII lists the modelled first substitution is the ASCII one. -/
theorem subNonword_u_ascii (l : List Nat) (h : ∀ c ∈ l, c < 128) :
    subNonword_u l = subNonword l := by
  induction l with
  | nil => rfl
  | cons a rest ih =>
    have ha : pyIsWord a = isWordCode a := pyIsWord_ascii a (h a (List.mem_cons_self _ _))
    have hr := ih (fun c hc => h c (List.mem_cons_of_mem _ hc))
    simp only [subNonword_u, subNonword, List.map_cons] at hr ⊢
    rw [ha, hr]

/-- The first substitution sends ASCII lists to ASCII lists. -/
theorem subNonword_ascii_mem (l : List Nat) (h : ∀ c ∈ l, c < 128) :
    ∀ c ∈ subNonword l, c < 128 := by
  intro c hc
  simp only [subNonword, List.mem_map] at hc
  obtain ⟨b, hb, rfl⟩ := hc
  split_ifs with hw
  · exact h b hb
  · unfold dashCode
    omega

/-- On ASCII input the full pipeline coincides with its ASCII
fragment. -/
theorem sanitize_ucodes_eq_ascii (l : List Nat) (h : ∀ c ∈ l, c < 128) :
    sanitize_ucodes l = sanitize_codes l := by
  unfold sanitize_ucodes sanitize_codes
  rw [subNonword_u_ascii l h]
  have hcol : ∀ c ∈ collapseDashes (subNonword l), c < 128 :=
    fun c hc => subNonword_ascii_mem l h c (mem_collapseDashes _ c hc)
  rw [pyLower_ascii _ hcol]

/-- The ASCII-fragment pipeline sends ASCII lists to ASCII lists. -/
theorem sanitize_codes_ascii_mem (l : List Nat) (h : ∀ c ∈ l, c < 128) :
    ∀ c ∈ sanitize_codes l, c < 128 := by
  intro c hc
  have h1 := mem_stripDashes _ c hc
  simp only [List.mem_map] at h1
  obtain ⟨a, ha, rfl⟩ := h1
  have h3 : a < 128 := subNonword_ascii_mem l h a (mem_collapseDashes _ a ha)
  unfold asciiLower
  split_ifs with hu
  · simp only [isUpperCode, Bool.and_eq_true, decide_eq_true_eq] at hu
    omega
  · exact h3

/-- C10 counterexample: on the one-character string İ (U+0130, decimal
304) `sanitize_branch_name` is not idempotent.  The first pass keeps the
letter (it is a word character) and lowercases it to the two code points
i (U+0069) and combining dot above (U+0307); the second pass replaces
the combining mark — not a word character — with a dash and strips it,
leaving bare i.  So sanitizing twice differs from sanitizing once,
refuting the claimed idempotence over all strings. -/
theorem sanitize_unicode_not_idempotent :
    sanitize_ucodes [304] = [105, 775] ∧
    sanitize_ucodes (sanitize_ucodes [304]) = [105] ∧
    sanitize_ucodes (sanitize_ucodes [304]) ≠ sanitize_ucodes [304] := by
  refine ⟨rfl, rfl, ?_⟩
  decide

/-- C10 amended: restricted to ASCII strings — where the modelled word
class and lowercase map are exactly Python's — `sanitize_branch_name` is
idempotent, and its output contains no uppercase letters, no two
adjacent dashes, and no leading or trailing dash.  Over arbitrary
Unicode strings idempotence fails (see the counterexample): `str.lower`
can produce combining marks that the word class then rejects. -/
theorem sanitize_branch_name_ascii_idempotent_and_clean (l : List Nat)
    (hascii : l.all (fun c => decide (c < 128)) = true) :
    sanitize_ucodes (sanitize_ucodes l) = sanitize_ucodes l ∧
    (sanitize_ucodes l).all (fun c => !(isUpperCode c)) = true ∧
    hasDD (sanitize_ucodes l) = false ∧
    (∀ x, (sanitize_ucodes l).head? = some x → (x == dashCode) = false) ∧
    (∀ x, (sanitize_ucodes l).getLast? = some x → (x == dashCode) = false) := by
  have h : ∀ c ∈ l, c < 128 := by
    intro c hc
    have hd := List.all_eq_true.mp hascii c hc
    simpa using hd
  have he : sanitize_ucodes l = sanitize_codes l := sanitize_ucodes_eq_ascii l h
  have he2 : sanitize_ucodes (sanitize_codes l) = sanitize_codes (sanitize_codes l) :=
    sanitize_ucodes_eq_ascii _ (sanitize_codes_ascii_mem l h)
  rw [he, he2]
  exact sanitize_codes_idempotent_and_clean l

/-- C10 amended witness: the amended theorem applied at the concrete
ASCII branch name `Feature/Login` — the ASCII hypothesis holds by
computation and sanitizing it twice equals sanitizing it once. -/
theorem sanitize_branch_name_ascii_witness :
    featureLoginCodes.all (fun c => decide (c < 128)) = true ∧
    sanitize_ucodes (sanitize_ucodes featureLoginCodes) = sanitize_ucodes featureLoginCodes :=
  ⟨by decide,
   (sanitize_branch_name_ascii_idempotent_and_clean featureLoginCodes (by decide)).1⟩

/-- Worked example: the sanitized form of a mixed feature name. -/
theorem sanitize_branch_name_example :
    sanitize_branch_name "Feature/User Login!" = "feature-user-login" := by
  rfl

/-- Worked example: extraction of an architect result with no features
yields the default feature, and the build then produces exactly its one
successful outcome. -/
theorem extract_empty_example :
    extract_features_from_results emptyResults = [core_feature] ∧
    build_project [(core_feature, envFeatureOk)] =
      [(implement_feature core_feature envFeatureOk).outcome] ∧
    ((implement_feature core_feature envFeatureOk).outcome).status = "success" := by
  exact ⟨rfl, rfl, rfl⟩

/-- Worked example: with a local clone present, a failed
`git checkout -b` yields a tagged error result instead of an exception. -/
theorem create_branch_checkout_failure_tagged :
    create_branch "feature/x" gitEnvCheckoutFail =
      Except.ok { status := "error", message := "Failed to create branch: branch exists" } := by
  rfl

/-- Worked example mirroring the spec's feature-isolation scenario: three
features where the second one's implementation permanently fails produce
exactly three results, in order, with only the second marked as an
error. -/
theorem feature_isolation_example :
    (build_project
      [({ name := "User login", description := "login form" }, envFeatureOk),
       ({ name := "Task list", description := "task crud" }, envFeatureImplFails),
       ({ name := "Search", description := "full text search" }, envFeatureOk)]).map
        FeatureOutcome.status = ["success", "error", "success"] := by
  rfl

end CodeAgent
